import Mathlib

/-!
Verification of the pcl "store / submit / auth" core (phylaxsystems/pcl).

The Rust sources are shallowly embedded: strings are `List Char`, the
`HashMap` backing the state document is an association list, network and
interactive collaborators are function parameters, and fallible code
returns `Option` / `Except`.  Each definition is translated from the
corresponding function in the repository; file and line references are
given in the doc comments.
-/

namespace Pcl

/-- Model of a Rust `String` / `&str`: a list of characters. -/
abbrev Str := List Char

instance instDecidableEqExcept {ε α : Type} [DecidableEq ε] [DecidableEq α] :
    DecidableEq (Except ε α)
  | Except.ok a, Except.ok b =>
    if h : a = b then isTrue (by rw [h])
    else isFalse (by intro hh; cases hh; exact h rfl)
  | Except.ok _, Except.error _ => isFalse (fun h => Except.noConfusion h)
  | Except.error _, Except.ok _ => isFalse (fun h => Except.noConfusion h)
  | Except.error a, Except.error b =>
    if h : a = b then isTrue (by rw [h])
    else isFalse (by intro hh; cases hh; exact h rfl)

/-! ## AssertionKey codec (crates/core/src/config.rs) -/

/-- `AssertionKey` (config.rs:47-50): assertion name plus ordered
constructor-argument literals. -/
structure AssertionKey where
  assertion_name : Str
  constructor_args : List Str
deriving DecidableEq

/-- Rust `str::split_once(c)` (used in config.rs:89 and
build_and_flatten.rs:102): split at the first occurrence of `c`,
`none` when `c` does not occur. -/
def splitOnce (c : Char) : Str → Option (Str × Str)
  | [] => none
  | a :: s =>
    if a = c then some ([], s)
    else (splitOnce c s).map (fun p => (a :: p.1, p.2))

/-- Rust `str::trim_end_matches(c)` for a single-character pattern
(config.rs:92): drop every trailing occurrence of `c`. -/
def trimEndMatches (c : Char) (s : Str) : Str :=
  (s.reverse.dropWhile (fun a => a = c)).reverse

/-- Rust `str::split(c)` (config.rs:101): split on every occurrence of
`c`; the empty string yields one empty piece. -/
def splitOn (c : Char) : Str → List Str
  | [] => [[]]
  | a :: s =>
    if a = c then [] :: splitOn c s
    else
      match splitOn c s with
      | [] => [[a]]
      | t :: ts => (a :: t) :: ts

/-- Rust `[String]::join(",")` for a one-character separator
(config.rs:71): interleave `c` between the pieces. -/
def joinSep (c : Char) : List Str → Str
  | [] => []
  | [a] => a
  | a :: b :: rest => a ++ c :: joinSep c (b :: rest)

/-- `impl fmt::Display for AssertionKey` (config.rs:65-77): the name
alone when there are no constructor args, otherwise
`name(arg0,arg1,...)`. -/
def assertionKeyToString (k : AssertionKey) : Str :=
  if k.constructor_args = [] then k.assertion_name
  else k.assertion_name ++ '(' :: (joinSep ',' k.constructor_args ++ [')'])

/-- `impl From<String> for AssertionKey` (config.rs:79-108).  The
`expect` on `split_once('(')` is modelled as the `none` branch of the
result; every other path returns `some`. -/
def assertionKeyFromString (s : Str) : Option AssertionKey :=
  if '(' ∈ s then
    match splitOnce '(' s with
    | none => none
    | some (name, rest) =>
      let args := trimEndMatches ')' rest
      if args = [] then some ⟨name, []⟩
      else some ⟨name, splitOn ',' args⟩
  else some ⟨s, []⟩

theorem splitOnce_isSome {c : Char} {s : Str} (h : c ∈ s) :
    (splitOnce c s).isSome = true := by
  induction s with
  | nil => cases h
  | cons a t ih =>
    by_cases hac : a = c
    · simp [splitOnce, hac]
    · have ht : c ∈ t := by
        cases List.mem_cons.mp h with
        | inl h' => exact absurd h'.symm hac
        | inr h' => exact h'
      simp only [splitOnce, if_neg hac]
      cases hsp : splitOnce c t with
      | none => rw [hsp] at ih; simp at ih; exact absurd (ih ht) (by simp)
      | some p => simp

theorem splitOnce_of_not_mem_left {c : Char} {n r : Str} (h : c ∉ n) :
    splitOnce c (n ++ c :: r) = some (n, r) := by
  induction n with
  | nil => simp [splitOnce]
  | cons a t ih =>
    have hac : a ≠ c := fun hac => h (hac ▸ List.mem_cons_self a t)
    have ht : c ∉ t := fun ht => h (List.mem_cons_of_mem a ht)
    simp only [List.cons_append, splitOnce, if_neg hac]
    rw [List.append_eq, ih ht, Option.map_some']

theorem splitOnce_fst_takeWhile {c : Char} {s : Str} (h : c ∈ s) :
    ∃ r, splitOnce c s = some (s.takeWhile (fun a => a ≠ c), r) := by
  induction s with
  | nil => cases h
  | cons a t ih =>
    by_cases hac : a = c
    · subst hac
      exact ⟨t, by simp [splitOnce, List.takeWhile_cons]⟩
    · have ht : c ∈ t := by
        cases List.mem_cons.mp h with
        | inl h' => exact absurd h'.symm hac
        | inr h' => exact h'
      obtain ⟨r, hr⟩ := ih ht
      refine ⟨r, ?_⟩
      simp only [splitOnce, if_neg hac, hr, Option.map_some']
      simp [List.takeWhile_cons, hac]

theorem trimEndMatches_append_sep (c : Char) (s : Str) :
    trimEndMatches c (s ++ [c]) = trimEndMatches c s := by
  simp [trimEndMatches, List.dropWhile_cons]

theorem trimEndMatches_of_getLast_ne {c : Char} {s : Str}
    (h : s.getLast? ≠ some c) : trimEndMatches c s = s := by
  unfold trimEndMatches
  cases hrev : s.reverse with
  | nil =>
    have : s = [] := by
      have := congrArg List.reverse hrev
      simpa using this
    simp [this]
  | cons a t =>
    have hlast : s.getLast? = some a := by
      rw [← List.head?_reverse, hrev]; rfl
    have hac : ¬(a = c) := fun hac => h (hac ▸ hlast)
    have hd : List.dropWhile (fun x => x = c) (a :: t) = a :: t := by
      simp [List.dropWhile_cons, hac]
    rw [hd]
    exact (by simpa using congrArg List.reverse hrev :
      s = (a :: t).reverse).symm

theorem splitOn_ne_nil (c : Char) (s : Str) : splitOn c s ≠ [] := by
  induction s with
  | nil => simp [splitOn]
  | cons a t ih =>
    by_cases hac : a = c
    · simp [splitOn, hac]
    · simp only [splitOn, if_neg hac]
      cases hsp : splitOn c t with
      | nil => simp
      | cons u us => simp

theorem splitOn_of_not_mem {c : Char} {s : Str} (h : c ∉ s) :
    splitOn c s = [s] := by
  induction s with
  | nil => rfl
  | cons a t ih =>
    have hac : a ≠ c := fun hac => h (hac ▸ List.mem_cons_self a t)
    have ht : c ∉ t := fun ht => h (List.mem_cons_of_mem a ht)
    simp only [splitOn, if_neg hac, ih ht]

theorem splitOn_append_sep {c : Char} {a t : Str} (h : c ∉ a) :
    splitOn c (a ++ c :: t) = a :: splitOn c t := by
  induction a with
  | nil => simp [splitOn]
  | cons x xs ih =>
    have hxc : x ≠ c := fun hxc => h (hxc ▸ List.mem_cons_self x xs)
    have hxs : c ∉ xs := fun hxs => h (List.mem_cons_of_mem x hxs)
    simp only [List.cons_append, splitOn, if_neg hxc]
    rw [List.append_eq, ih hxs]

theorem splitOn_joinSep {c : Char} {A : List Str} (hne : A ≠ [])
    (h : ∀ a ∈ A, c ∉ a) : splitOn c (joinSep c A) = A := by
  induction A with
  | nil => exact absurd rfl hne
  | cons a rest ih =>
    cases rest with
    | nil =>
      simp only [joinSep]
      exact splitOn_of_not_mem (h a (List.mem_cons_self a []))
    | cons b rs =>
      have ha : c ∉ a := h a (List.mem_cons_self a _)
      have hrest : ∀ x ∈ b :: rs, c ∉ x := fun x hx =>
        h x (List.mem_cons_of_mem a hx)
      simp only [joinSep, splitOn_append_sep ha, ih (by simp) hrest]

theorem joinSep_ne_nil {c : Char} {A : List Str} (hne : A ≠ [])
    (hne1 : A ≠ [[]]) : joinSep c A ≠ [] := by
  cases A with
  | nil => exact absurd rfl hne
  | cons a rest =>
    cases rest with
    | nil =>
      intro h
      apply hne1
      simp only [joinSep] at h
      rw [h]
    | cons b rs => simp [joinSep]

theorem joinSep_getLast?_ne {c d : Char} (hcd : c ≠ d) {A : List Str}
    (h : ∀ a, A.getLast? = some a → a.getLast? ≠ some d) :
    (joinSep c A).getLast? ≠ some d := by
  induction A with
  | nil => simp [joinSep]
  | cons a rest ih =>
    cases rest with
    | nil =>
      simp only [joinSep]
      exact h a (by simp)
    | cons b rs =>
      simp only [joinSep]
      have hrest : ∀ x, (b :: rs).getLast? = some x → x.getLast? ≠ some d := by
        intro x hx
        exact h x (by rwa [List.getLast?_cons_cons])
      have htail := ih hrest
      rw [List.getLast?_append_of_ne_nil]
      · cases hj : joinSep c (b :: rs) with
        | nil => simpa [hj] using hcd
        | cons u us =>
          rw [hj] at htail
          rw [List.getLast?_cons_cons] at *
          exact htail
      · simp

/-- Helper: decoding always succeeds: the `expect` branch of
`From<String> for AssertionKey` is unreachable because it is guarded by
the `contains('(')` check. -/
theorem assertionKeyFromString_isSome (s : Str) :
    (assertionKeyFromString s).isSome = true := by
  unfold assertionKeyFromString
  by_cases h : '(' ∈ s
  · rw [if_pos h]
    have hsome := splitOnce_isSome (c := '(') h
    cases hsp : splitOnce '(' s with
    | none => rw [hsp] at hsome; simp at hsome
    | some p =>
      obtain ⟨name, rest⟩ := p
      by_cases hargs : trimEndMatches ')' rest = []
      · simp [hargs]
      · simp [hargs]
  · rw [if_neg h]
    rfl

/-- C10: decoding an `AssertionKey` from a string is total: every input
decodes to `some` key (the `expect` on `split_once('(')` is unreachable
thanks to the preceding `contains('(')` guard), and any input without
`'('` decodes to the whole string as name with zero constructor
arguments. -/
theorem assertionKeyFromString_total (s : Str) :
    (assertionKeyFromString s).isSome = true ∧
    ('(' ∉ s → assertionKeyFromString s = some ⟨s, []⟩) := by
  refine ⟨assertionKeyFromString_isSome s, fun h => ?_⟩
  unfold assertionKeyFromString
  rw [if_neg h]

theorem assertionKeyFromString_total_witness :
    (assertionKeyFromString ['a', 'b']).isSome = true ∧
    assertionKeyFromString ['a', 'b'] = some ⟨['a', 'b'], []⟩ :=
  ⟨(assertionKeyFromString_total ['a', 'b']).1,
    (assertionKeyFromString_total ['a', 'b']).2 (by decide)⟩

/-- C1 counterexample: the key with name `n` and the single empty-string
constructor argument encodes (via `Display`) to `n()`, which decodes to
the key with zero arguments, so decode after encode is not the identity
on every argument list. -/
theorem assertionKey_roundtrip_cex :
    '(' ∉ (['n'] : Str) ∧
    assertionKeyFromString (assertionKeyToString ⟨['n'], [[]]⟩) =
      some ⟨['n'], []⟩ ∧
    (some ⟨['n'], []⟩ : Option AssertionKey) ≠ some ⟨['n'], [[]]⟩ := by
  decide

/-- C1 (amended): decode after encode is the identity on every key whose
name contains no `'('`, provided no constructor argument contains a
comma, the final argument does not end in `')'`, and the argument list
is not the single empty string; additionally `n` and `n()` both decode
to the key `(n, [])`. -/
theorem assertionKey_roundtrip (k : AssertionKey)
    (hname : '(' ∉ k.assertion_name)
    (hargs : ∀ a ∈ k.constructor_args, ',' ∉ a)
    (hlast : ((k.constructor_args.getLast?.getD []).getLast? : Option Char) ≠ some ')')
    (hone : k.constructor_args ≠ [[]]) :
    assertionKeyFromString (assertionKeyToString k) = some k ∧
    assertionKeyFromString k.assertion_name = some ⟨k.assertion_name, []⟩ ∧
    assertionKeyFromString (k.assertion_name ++ ['(', ')']) =
      some ⟨k.assertion_name, []⟩ := by
  obtain ⟨n, A⟩ := k
  simp only [AssertionKey.mk.injEq] at *
  have decode_name : assertionKeyFromString n = some ⟨n, []⟩ := by
    unfold assertionKeyFromString
    rw [if_neg hname]
  have decode_empty : assertionKeyFromString (n ++ ['(', ')']) =
      some ⟨n, []⟩ := by
    have hmem : '(' ∈ n ++ ['(', ')'] := by simp
    have hsp : splitOnce '(' (n ++ '(' :: [')']) = some (n, [')']) :=
      splitOnce_of_not_mem_left hname
    unfold assertionKeyFromString
    rw [if_pos hmem]
    rw [show n ++ ['(', ')'] = n ++ '(' :: [')'] from rfl, hsp]
    simp [trimEndMatches]
  refine ⟨?_, decode_name, decode_empty⟩
  by_cases hA : A = []
  · subst hA
    unfold assertionKeyToString
    rw [if_pos rfl]
    exact decode_name
  · have hlast' : ∀ a, A.getLast? = some a → a.getLast? ≠ some ')' := by
      intro a ha
      rw [ha] at hlast
      simpa using hlast
    set J := joinSep ',' A with hJ
    have hJlast : J.getLast? ≠ some ')' :=
      joinSep_getLast?_ne (by decide) hlast'
    have htrim : trimEndMatches ')' (J ++ [')']) = J :=
      (trimEndMatches_append_sep ')' J).trans
        (trimEndMatches_of_getLast_ne hJlast)
    have hJne : J ≠ [] := joinSep_ne_nil hA hone
    have hmem : '(' ∈ n ++ '(' :: (J ++ [')']) := by simp
    have hsp : splitOnce '(' (n ++ '(' :: (J ++ [')'])) =
        some (n, J ++ [')']) := splitOnce_of_not_mem_left hname
    unfold assertionKeyToString
    rw [if_neg hA]
    unfold assertionKeyFromString
    rw [if_pos hmem, hsp]
    simp only [htrim, if_neg hJne]
    rw [splitOn_joinSep hA hargs]

theorem assertionKey_roundtrip_witness :
    assertionKeyFromString
        (assertionKeyToString ⟨['F', 'o', 'o'], [['b', 'a', 'r'], ['b', 'a', 'z']]⟩) =
      some ⟨['F', 'o', 'o'], [['b', 'a', 'r'], ['b', 'a', 'z']]⟩ :=
  (assertionKey_roundtrip ⟨['F', 'o', 'o'], [['b', 'a', 'r'], ['b', 'a', 'z']]⟩
    (by decide) (by decide) (by decide) (by decide)).1

/-! ## Artifact resolver: compiler version (crates/phoundry/src/build_and_flatten.rs) -/

/-- The `PhoundryError` variants reached by the embedded code
(crates/phoundry/src/error.rs). -/
inductive PhoundryError where
  | invalidForgeOutput (msg : Str)
  | contractNotFound (name : Str)
  | directoryNotFound (path : Str)
  | solcError (msg : Str)
deriving DecidableEq

/-- Extraction of `solc_version` (build_and_flatten.rs:99-105):
`metadata.compiler.version.split_once('+')`, erroring with
`InvalidForgeOutput` when no `'+'` occurs, else keeping the prefix. -/
def extractSolcVersion (version : Str) : Except PhoundryError Str :=
  match splitOnce '+' version with
  | some p => Except.ok p.1
  | none =>
    Except.error (PhoundryError.invalidForgeOutput
      "Invalid solc version format".toList)

/-- C7: for every full compiler-version string (one carrying the `+`
build-metadata suffix) the resolver extracts the portion before the
first `'+'` as the compiler version. -/
theorem extractSolcVersion_before_plus (version : Str) (h : '+' ∈ version) :
    extractSolcVersion version =
      Except.ok (version.takeWhile (fun a => decide (a ≠ '+'))) := by
  obtain ⟨r, hr⟩ := splitOnce_fst_takeWhile h
  unfold extractSolcVersion
  rw [hr]

theorem extractSolcVersion_before_plus_witness :
    extractSolcVersion ['0', '.', '8', '+', 'x'] = Except.ok ['0', '.', '8'] :=
  (extractSolcVersion_before_plus ['0', '.', '8', '+', 'x'] (by decide)).trans rfl

/-! ## DA store pipeline (crates/core/src/assertion_da.rs) -/

/-- Constructor declaration of a contract ABI: the `selector_type()`
strings of its inputs, in declaration order (alloy `JsonAbi`,
consumed at assertion_da.rs:199-216). -/
structure AbiConstructor where
  inputs : List Str
deriving DecidableEq

/-- The part of alloy's `JsonAbi` read by the pipeline: the optional
constructor declaration (`abi.constructor()`). -/
structure JsonAbi where
  constructorDecl : Option AbiConstructor
deriving DecidableEq

/-- `BuildAndFlatOutput` (build_and_flatten.rs:32-39). -/
structure BuildAndFlatOutput where
  compiler_version : Str
  flattened_source : Str
  abi : JsonAbi
deriving DecidableEq

/-- `abi.constructor().map(|c| c.inputs.clone()).unwrap_or_default()`
(assertion_da.rs:199-203), with inputs already mapped to their
selector-type strings. -/
def abiConstructorInputs (abi : JsonAbi) : List Str :=
  (abi.constructorDecl.map (fun c => c.inputs)).getD []

/-- `DaClientError` (assertion_da_client crate, matched at
assertion_da.rs:232-259).  A `ReqwestError` carries an optional HTTP
status. -/
inductive DaClientError where
  | reqwestError (status : Option Nat)
  | urlParseError (msg : Str)
  | jsonError (msg : Str)
  | jsonRpcError (code : Int) (message : Str)
  | invalidResponse (msg : Str)
deriving DecidableEq

/-- `DaSubmissionResponse`: submission id and prover signature. -/
structure DaSubmissionResponse where
  id : Str
  prover_signature : Str
deriving DecidableEq

/-- `DaSubmitError` (crates/core/src/error.rs:7-28). -/
inductive DaSubmitError where
  | daClientError (e : DaClientError)
  | phoundryError (e : PhoundryError)
  | parseError
  | fromHexError
  | httpError (status : Nat)
  | invalidConstructorArgs (expected got : Nat)
deriving DecidableEq

/-- The request payload of `submit_assertion_with_args`
(assertion_da.rs:220-227). -/
structure DaRequest where
  assertion_contract : Str
  flattened_source : Str
  compiler_version : Str
  constructor_signature : Str
  constructor_args : List Str
deriving DecidableEq

/-- Spinner message of `handle_http_error` for status 401
(assertion_da.rs:110-112). -/
def unauthorizedStoreMsg : Str :=
  "❌ Assertion submission failed! Unauthorized. Please run `pcl auth login`.".toList

/-- Result of `DaStoreArgs::submit_to_da`: the request that was sent to
the DA service (when one was sent), the final spinner message (when one
was emitted), and the returned value. -/
structure SubmitOutcome where
  request : Option DaRequest
  spinnerMsg : Option Str
  result : Except DaSubmitError DaSubmissionResponse
deriving DecidableEq

/-- `DaStoreArgs::submit_to_da` (assertion_da.rs:193-262).  The network
is a function from the request payload to the DA client's result. -/
def submitToDa (assertionContract : Str) (constructorArgs : List Str)
    (buildOutput : BuildAndFlatOutput)
    (net : DaRequest → Except DaClientError DaSubmissionResponse) :
    SubmitOutcome :=
  let constructorInputs := abiConstructorInputs buildOutput.abi
  if constructorInputs.length ≠ constructorArgs.length then
    ⟨none, none,
      Except.error (DaSubmitError.invalidConstructorArgs
        constructorInputs.length constructorArgs.length)⟩
  else
    let joinedInputs := joinSep ',' constructorInputs
    let constructorSignature :=
      "constructor(".toList ++ joinedInputs ++ ")".toList
    let req : DaRequest :=
      ⟨assertionContract, buildOutput.flattened_source,
        buildOutput.compiler_version, constructorSignature, constructorArgs⟩
    match net req with
    | Except.ok res => ⟨some req, none, Except.ok res⟩
    | Except.error err =>
      match err with
      | DaClientError.reqwestError (some status) =>
        if status = 401 then
          ⟨some req, some unauthorizedStoreMsg,
            Except.error (DaSubmitError.daClientError err)⟩
        else
          ⟨some req, none, Except.error (DaSubmitError.httpError status)⟩
      | DaClientError.reqwestError none =>
        ⟨some req, none, Except.error (DaSubmitError.daClientError err)⟩
      | DaClientError.urlParseError _ =>
        ⟨some req, some "❌ Invalid DA server URL".toList,
          Except.error (DaSubmitError.daClientError err)⟩
      | DaClientError.jsonError _ =>
        ⟨some req, some "❌ Failed to parse server response".toList,
          Except.error (DaSubmitError.daClientError err)⟩
      | DaClientError.jsonRpcError code message =>
        ⟨some req,
          some ("❌ Server error (code ".toList ++ (toString code).toList ++
            "): ".toList ++ message),
          Except.error (DaSubmitError.daClientError err)⟩
      | DaClientError.invalidResponse msg =>
        ⟨some req, some ("❌ Invalid server response: ".toList ++ msg),
          Except.error (DaSubmitError.daClientError err)⟩

/-- Helper: when the argument count matches the ABI constructor input
count, `submit_to_da` always sends the canonical request, whatever the
network answers. -/
theorem submitToDa_request_eq (assertionContract : Str)
    (constructorArgs : List Str) (buildOutput : BuildAndFlatOutput)
    (net : DaRequest → Except DaClientError DaSubmissionResponse)
    (h : (abiConstructorInputs buildOutput.abi).length = constructorArgs.length) :
    (submitToDa assertionContract constructorArgs buildOutput net).request =
      some ⟨assertionContract, buildOutput.flattened_source,
        buildOutput.compiler_version,
        "constructor(".toList ++ joinSep ',' (abiConstructorInputs buildOutput.abi) ++
          ")".toList,
        constructorArgs⟩ := by
  unfold submitToDa
  dsimp only
  rw [if_neg (not_not_intro h)]
  split
  · rfl
  · split
    · split <;> rfl
    · rfl
    · rfl
    · rfl
    · rfl
    · rfl

/-- C2: the store pipeline proceeds past the Constructor Binder (a
request is sent) iff the ABI constructor input count `k` equals the
supplied argument count `m`; on mismatch it returns
`InvalidConstructorArgs(k, m)` and no request is ever sent. -/
theorem constructorBinder_gate (assertionContract : Str)
    (constructorArgs : List Str) (buildOutput : BuildAndFlatOutput)
    (net : DaRequest → Except DaClientError DaSubmissionResponse) :
    ((submitToDa assertionContract constructorArgs buildOutput net).request.isSome =
        true ↔
      (abiConstructorInputs buildOutput.abi).length = constructorArgs.length) ∧
    ((abiConstructorInputs buildOutput.abi).length ≠ constructorArgs.length →
      submitToDa assertionContract constructorArgs buildOutput net =
        ⟨none, none,
          Except.error (DaSubmitError.invalidConstructorArgs
            (abiConstructorInputs buildOutput.abi).length
            constructorArgs.length)⟩) := by
  by_cases h :
      (abiConstructorInputs buildOutput.abi).length = constructorArgs.length
  · refine ⟨⟨fun _ => h, fun _ => ?_⟩, fun hne => absurd h hne⟩
    rw [submitToDa_request_eq _ _ _ _ h]
    rfl
  · have heq : submitToDa assertionContract constructorArgs buildOutput net =
        ⟨none, none,
          Except.error (DaSubmitError.invalidConstructorArgs
            (abiConstructorInputs buildOutput.abi).length
            constructorArgs.length)⟩ := by
      unfold submitToDa
      dsimp only
      rw [if_pos h]
    refine ⟨?_, fun _ => heq⟩
    rw [heq]
    simp [h]

theorem constructorBinder_gate_witness :
    submitToDa ['A'] [['x']] ⟨['v'], ['s'], ⟨none⟩⟩
        (fun _ => Except.error (DaClientError.reqwestError none)) =
      ⟨none, none, Except.error (DaSubmitError.invalidConstructorArgs 0 1)⟩ :=
  (constructorBinder_gate ['A'] [['x']] ⟨['v'], ['s'], ⟨none⟩⟩
    (fun _ => Except.error (DaClientError.reqwestError none))).2 (by decide)

/-- C8: the Constructor Binder builds the signature
`constructor(type0,type1,...)` by joining the declared input selector
types in declaration order with commas; with no constructor or zero
inputs the signature is exactly `constructor()`. -/
theorem constructorSignature_canonical (assertionContract : Str)
    (constructorArgs : List Str) (buildOutput : BuildAndFlatOutput)
    (net : DaRequest → Except DaClientError DaSubmissionResponse)
    (h : (abiConstructorInputs buildOutput.abi).length = constructorArgs.length) :
    ∃ req,
      (submitToDa assertionContract constructorArgs buildOutput net).request =
        some req ∧
      req.constructor_signature =
        "constructor(".toList ++
          joinSep ',' (abiConstructorInputs buildOutput.abi) ++ ")".toList ∧
      ((buildOutput.abi.constructorDecl = none ∨
          abiConstructorInputs buildOutput.abi = []) →
        req.constructor_signature = "constructor()".toList) := by
  refine ⟨_, submitToDa_request_eq _ _ _ _ h, rfl, ?_⟩
  rintro (hc | hc)
  · have hnil : abiConstructorInputs buildOutput.abi = [] := by
      simp [abiConstructorInputs, hc]
    show "constructor(".toList ++
        joinSep ',' (abiConstructorInputs buildOutput.abi) ++ ")".toList =
      "constructor()".toList
    rw [hnil]
    decide
  · show "constructor(".toList ++
        joinSep ',' (abiConstructorInputs buildOutput.abi) ++ ")".toList =
      "constructor()".toList
    rw [hc]
    decide

theorem constructorSignature_canonical_witness :
    ∃ req,
      (submitToDa ['M'] [['0']]
          ⟨['v'], ['s'], ⟨some ⟨["address".toList]⟩⟩⟩
          (fun _ => Except.ok ⟨['i'], ['g']⟩)).request = some req ∧
      req.constructor_signature = "constructor(address)".toList := by
  obtain ⟨req, h1, h2, _⟩ :=
    constructorSignature_canonical ['M'] [['0']]
      ⟨['v'], ['s'], ⟨some ⟨["address".toList]⟩⟩⟩
      (fun _ => Except.ok ⟨['i'], ['g']⟩) (by decide)
  exact ⟨req, h1, by rw [h2]; decide⟩

/-! ## Source flattener fallback (crates/phoundry/src/build_and_flatten.rs) -/

/-- `foundry_compilers::flatten::FlattenerError`: the two failure
categories of the primary flattening strategy distinguished at
build_and_flatten.rs:173-181. -/
inductive FlattenerError where
  | compilation (e : Str)
  | other (e : Str)
deriving DecidableEq

/-- Result of `BuildAndFlattenArgs::flatten`, recording whether the
secondary path-based strategy was invoked. -/
structure FlattenOutcome where
  fallbackInvoked : Bool
  result : Except PhoundryError Str
deriving DecidableEq

/-- `BuildAndFlattenArgs::flatten` (build_and_flatten.rs:169-184): try
the primary dependency-graph-aware strategy; on
`FlattenerError::Compilation` fall back to the path-based strategy; on
`FlattenerError::Other` fail without the fallback. -/
def flattenWithFallback (primary : Except FlattenerError Str)
    (fallback : Except Str Str) : FlattenOutcome :=
  match primary with
  | Except.ok flattened => ⟨false, Except.ok flattened⟩
  | Except.error (FlattenerError.compilation _) =>
    match fallback with
    | Except.ok flattened => ⟨true, Except.ok flattened⟩
    | Except.error e => ⟨true, Except.error (PhoundryError.solcError e)⟩
  | Except.error (FlattenerError.other e) =>
    ⟨false, Except.error (PhoundryError.solcError e)⟩

/-- C4: the secondary path-based strategy runs exactly when the primary
strategy fails with the compilation-class error; every other primary
failure category is fatal and never invokes the fallback. -/
theorem flatten_fallback_iff (primary : Except FlattenerError Str)
    (fallback : Except Str Str) :
    ((flattenWithFallback primary fallback).fallbackInvoked = true ↔
      ∃ e, primary = Except.error (FlattenerError.compilation e)) ∧
    (∀ e, primary = Except.error (FlattenerError.other e) →
      (flattenWithFallback primary fallback).fallbackInvoked = false ∧
      (flattenWithFallback primary fallback).result =
        Except.error (PhoundryError.solcError e)) := by
  cases primary with
  | ok s =>
    refine ⟨by simp [flattenWithFallback], ?_⟩
    intro e he
    simp at he
  | error err =>
    cases err with
    | compilation e =>
      refine ⟨?_, ?_⟩
      · cases fallback <;> simp [flattenWithFallback]
      · intro e' he'
        simp at he'
    | other e =>
      refine ⟨?_, ?_⟩
      · cases fallback <;> simp [flattenWithFallback]
      · intro e' he'
        have he : e = e' := by simpa using he'
        subst he
        exact ⟨rfl, rfl⟩

theorem flatten_fallback_iff_witness :
    (flattenWithFallback (Except.error (FlattenerError.compilation ['x']))
        (Except.ok ['s'])).fallbackInvoked = true ∧
    (flattenWithFallback (Except.error (FlattenerError.other ['x']))
        (Except.ok ['s'])).fallbackInvoked = false :=
  ⟨(flatten_fallback_iff (Except.error (FlattenerError.compilation ['x']))
      (Except.ok ['s'])).1.mpr ⟨['x'], rfl⟩,
    ((flatten_fallback_iff (Except.error (FlattenerError.other ['x']))
      (Except.ok ['s'])).2 ['x'] rfl).1⟩

/-! ## State document (crates/core/src/config.rs) -/

/-- `UserAuth` (config.rs:393-404).  The parsed Ethereum address is kept
as its string rendering and the expiry as a Unix timestamp. -/
structure UserAuth where
  access_token : Str
  refresh_token : Str
  user_address : Str
  expires_at : Int
deriving DecidableEq

/-- `AssertionForSubmission` (config.rs:427-437). -/
structure AssertionForSubmission where
  assertion_contract : Str
  assertion_id : Str
  signature : Str
  constructor_args : List Str
deriving DecidableEq

/-- `CliConfig` (config.rs:37-43): the state document, with the
`HashMap<AssertionKey, AssertionForSubmission>` modelled as an
association list. -/
structure CliConfig where
  auth : Option UserAuth
  assertions_for_submission : List (AssertionKey × AssertionForSubmission)
deriving DecidableEq

/-- `CliConfig::default()`: no auth, empty assertion collection. -/
def CliConfig.default : CliConfig := ⟨none, []⟩

/-- `HashMap::insert` on the association-list model: replace the value
of an existing key, else append. -/
def insertAssoc (m : List (AssertionKey × AssertionForSubmission))
    (k : AssertionKey) (v : AssertionForSubmission) :
    List (AssertionKey × AssertionForSubmission) :=
  match m with
  | [] => [(k, v)]
  | (k', v') :: rest =>
    if k' = k then (k, v) :: rest else (k', v') :: insertAssoc rest k v

/-- `HashMap::remove` on the association-list model: the removed value
(if any) and the remaining map. -/
def removeAssoc (m : List (AssertionKey × AssertionForSubmission))
    (k : AssertionKey) :
    Option AssertionForSubmission × List (AssertionKey × AssertionForSubmission) :=
  match m with
  | [] => (none, [])
  | (k', v') :: rest =>
    if k' = k then (some v', rest)
    else
      let r := removeAssoc rest k
      (r.1, (k', v') :: r.2)

/-- `CliConfig::add_assertion_for_submission` (config.rs:353-363): the
key is derived from the record's own name and constructor args. -/
def addAssertionForSubmission (config : CliConfig)
    (afs : AssertionForSubmission) : CliConfig :=
  let key : AssertionKey := ⟨afs.assertion_contract, afs.constructor_args⟩
  { config with
    assertions_for_submission :=
      insertAssoc config.assertions_for_submission key afs }

/-- `DaStoreArgs::run` outcome: final state document, final spinner
message, and the returned result. -/
structure StoreRunOutcome where
  config : CliConfig
  spinnerMsg : Option Str
  result : Except DaSubmitError Unit
deriving DecidableEq

/-- `DaStoreArgs::run` (assertion_da.rs:312-342): build and flatten,
create the client (anonymous or bearer-authenticated depending on
`config.auth`, abstracted by `clientRes`), submit to the DA, and only on
success record the accepted submission in the state document. -/
def daStoreRun (assertionContract : Str) (constructorArgs : List Str)
    (jsonOutput : Bool)
    (buildRes : Except PhoundryError BuildAndFlatOutput)
    (clientRes : Except DaClientError Unit)
    (net : DaRequest → Except DaClientError DaSubmissionResponse)
    (config : CliConfig) : StoreRunOutcome :=
  match buildRes with
  | Except.error e => ⟨config, none, Except.error (DaSubmitError.phoundryError e)⟩
  | Except.ok buildOutput =>
    match clientRes with
    | Except.error e =>
      ⟨config, none, Except.error (DaSubmitError.daClientError e)⟩
    | Except.ok _ =>
      let submission := submitToDa assertionContract constructorArgs buildOutput net
      match submission.result with
      | Except.error e => ⟨config, submission.spinnerMsg, Except.error e⟩
      | Except.ok res =>
        let afs : AssertionForSubmission :=
          ⟨assertionContract, res.id, res.prover_signature, constructorArgs⟩
        ⟨addAssertionForSubmission config afs,
          if jsonOutput then submission.spinnerMsg
          else some "✅ Assertion successfully submitted!".toList,
          Except.ok ()⟩

/-- C3: when the DA submission request receives HTTP 401,
`DaStoreArgs::run` fails with the client error while the spinner shows
the actionable re-authentication message, and the state document —
in particular `assertions_for_submission` — is exactly as before. -/
theorem store_run_unauthorized_frame (assertionContract : Str)
    (constructorArgs : List Str) (jsonOutput : Bool)
    (buildOutput : BuildAndFlatOutput)
    (net : DaRequest → Except DaClientError DaSubmissionResponse)
    (config : CliConfig)
    (hlen : (abiConstructorInputs buildOutput.abi).length = constructorArgs.length)
    (hnet : ∀ req, net req =
      Except.error (DaClientError.reqwestError (some 401))) :
    daStoreRun assertionContract constructorArgs jsonOutput
        (Except.ok buildOutput) (Except.ok ()) net config =
      ⟨config, some unauthorizedStoreMsg,
        Except.error (DaSubmitError.daClientError
          (DaClientError.reqwestError (some 401)))⟩ := by
  have hsub : submitToDa assertionContract constructorArgs buildOutput net =
      ⟨some ⟨assertionContract, buildOutput.flattened_source,
          buildOutput.compiler_version,
          "constructor(".toList ++
            joinSep ',' (abiConstructorInputs buildOutput.abi) ++ ")".toList,
          constructorArgs⟩,
        some unauthorizedStoreMsg,
        Except.error (DaSubmitError.daClientError
          (DaClientError.reqwestError (some 401)))⟩ := by
    unfold submitToDa
    dsimp only
    rw [if_neg (not_not_intro hlen), hnet]
    rfl
  unfold daStoreRun
  dsimp only
  rw [hsub]

theorem store_run_unauthorized_frame_witness :
    daStoreRun ['M'] [] false (Except.ok ⟨['v'], ['s'], ⟨none⟩⟩)
        (Except.ok ())
        (fun _ => Except.error (DaClientError.reqwestError (some 401)))
        ⟨none, [(⟨['a'], []⟩, ⟨['a'], ['1'], ['g'], []⟩)]⟩ =
      ⟨⟨none, [(⟨['a'], []⟩, ⟨['a'], ['1'], ['g'], []⟩)]⟩,
        some unauthorizedStoreMsg,
        Except.error (DaSubmitError.daClientError
          (DaClientError.reqwestError (some 401)))⟩ :=
  store_run_unauthorized_frame ['M'] [] false ⟨['v'], ['s'], ⟨none⟩⟩
    (fun _ => Except.error (DaClientError.reqwestError (some 401)))
    ⟨none, [(⟨['a'], []⟩, ⟨['a'], ['1'], ['g'], []⟩)]⟩
    (by decide) (fun _ => rfl)

/-! ## State repository loading (crates/core/src/config.rs, error.rs) -/

/-- `ConfigError` (crates/core/src/error.rs:69-91). -/
inductive ConfigError where
  | readError (msg : Str)
  | writeError (msg : Str)
  | parseError (msg : Str)
  | serializeError (msg : Str)
  | notAuthenticated
deriving DecidableEq

/-- `CliConfig::read_from_file_at_dir` (config.rs:303-331).  The file
system is a parameter: `none` when the config file does not exist,
`some (error e)` when reading it fails, `some (ok content)` otherwise;
`parse` is the external TOML deserializer. -/
def readFromFileAtDir (parse : Str → Except Str CliConfig)
    (file : Option (Except Str Str)) : Except ConfigError CliConfig :=
  match file with
  | none => Except.ok CliConfig.default
  | some (Except.error e) => Except.error (ConfigError.readError e)
  | some (Except.ok content) =>
    match parse content with
    | Except.ok config => Except.ok config
    | Except.error e => Except.error (ConfigError.parseError e)

/-- C9: loading an absent state document yields the default document (no
auth, empty collection) without error, while a malformed document fails
with `ConfigError::ParseError`, a constructor distinct from the
`ReadError` used for read failures. -/
theorem read_config_absent_vs_malformed (parse : Str → Except Str CliConfig) :
    (readFromFileAtDir parse none = Except.ok CliConfig.default ∧
      CliConfig.default.auth = none ∧
      CliConfig.default.assertions_for_submission = []) ∧
    (∀ content e, parse content = Except.error e →
      readFromFileAtDir parse (some (Except.ok content)) =
        Except.error (ConfigError.parseError e)) ∧
    (∀ e e', (ConfigError.parseError e : ConfigError) ≠ ConfigError.readError e') := by
  refine ⟨⟨rfl, rfl, rfl⟩, ?_, fun e e' h => ConfigError.noConfusion h⟩
  intro content e he
  have hstep : readFromFileAtDir parse (some (Except.ok content)) =
      match parse content with
      | Except.ok config => Except.ok config
      | Except.error e => Except.error (ConfigError.parseError e) := rfl
  rw [hstep, he]

theorem read_config_absent_vs_malformed_witness :
    readFromFileAtDir (fun _ => Except.error ['b']) none =
      Except.ok CliConfig.default ∧
    readFromFileAtDir (fun _ => Except.error ['b']) (some (Except.ok ['x'])) =
      Except.error (ConfigError.parseError ['b']) :=
  ⟨(read_config_absent_vs_malformed (fun _ => Except.error ['b'])).1.1,
    (read_config_absent_vs_malformed (fun _ => Except.error ['b'])).2.1
      ['x'] ['b'] rfl⟩

/-! ## Device-code auth session (crates/core/src/auth.rs) -/

/-- `POLL_INTERVAL` (auth.rs:25), in seconds. -/
def POLL_INTERVAL_SECS : Nat := 2

/-- `MAX_RETRIES` (auth.rs:27). -/
def MAX_RETRIES : Nat := 150

/-- `AuthResponse` (auth.rs:59-68). -/
structure AuthResponse where
  code : Str
  session_id : Str
  device_secret : Str
  expires_at : Str
deriving DecidableEq

/-- `StatusResponse` (auth.rs:71-77). -/
structure StatusResponse where
  verified : Bool
  address : Option Str
  token : Option Str
  refresh_token : Option Str
deriving DecidableEq

/-- `AuthError` (crates/core/src/error.rs:94-123). -/
inductive AuthError where
  | requestFailed (msg : Str)
  | timeout (attempts : Nat)
  | invalidAuthData (msg : Str)
  | configError
  | invalidAddress
  | invalidTimestamp
deriving DecidableEq

/-- `AuthCommand::update_config` (auth.rs:226-249): materialize
`UserAuth` from the verified status response; `parseAddress` embeds the
external alloy address parser and `parseRfc3339` the chrono RFC3339
timestamp parser. -/
def authUpdateConfig (parseAddress : Str → Option Str)
    (parseRfc3339 : Str → Option Int) (config : CliConfig)
    (status : StatusResponse) (authResponse : AuthResponse) :
    Except AuthError CliConfig :=
  match status.token with
  | none => Except.error (AuthError.invalidAuthData "Missing token".toList)
  | some token =>
    match status.refresh_token with
    | none =>
      Except.error (AuthError.invalidAuthData "Missing refresh token".toList)
    | some rtoken =>
      match status.address with
      | none =>
        Except.error (AuthError.invalidAuthData "Missing address".toList)
      | some addr =>
        match parseAddress addr with
        | none => Except.error AuthError.invalidAddress
        | some address =>
          match parseRfc3339 authResponse.expires_at with
          | none => Except.error AuthError.invalidTimestamp
          | some ts =>
            Except.ok { config with auth := some ⟨token, rtoken, address, ts⟩ }

/-- Outcome of `wait_for_verification`: the final state document, the
number of status polls performed, the total seconds spent sleeping, and
the returned result. -/
structure WaitOutcome where
  config : CliConfig
  pollsPerformed : Nat
  sleepSeconds : Nat
  result : Except AuthError Unit
deriving DecidableEq

/-- The `for _ in 0..MAX_RETRIES` loop of `wait_for_verification`
(auth.rs:188-203): poll the status endpoint (`poll i` is the response to
the `i`-th poll), stop on the first verified response after
materializing the credentials, otherwise sleep `POLL_INTERVAL` and
retry; the exhausted loop yields `Timeout(MAX_RETRIES)`. -/
def waitLoop (parseAddress : Str → Option Str)
    (parseRfc3339 : Str → Option Int) (poll : Nat → StatusResponse)
    (authResponse : AuthResponse) (config : CliConfig) (i : Nat) :
    Nat → WaitOutcome
  | 0 => ⟨config, 0, 0, Except.error (AuthError.timeout MAX_RETRIES)⟩
  | fuel + 1 =>
    let status := poll i
    if status.verified then
      match authUpdateConfig parseAddress parseRfc3339 config status
          authResponse with
      | Except.ok config' => ⟨config', 1, 0, Except.ok ()⟩
      | Except.error e => ⟨config, 1, 0, Except.error e⟩
    else
      let rest := waitLoop parseAddress parseRfc3339 poll authResponse config
        (i + 1) fuel
      ⟨rest.config, rest.pollsPerformed + 1,
        rest.sleepSeconds + POLL_INTERVAL_SECS, rest.result⟩

/-- `AuthCommand::wait_for_verification` (auth.rs:171-204). -/
def waitForVerification (parseAddress : Str → Option Str)
    (parseRfc3339 : Str → Option Int) (poll : Nat → StatusResponse)
    (authResponse : AuthResponse) (config : CliConfig) : WaitOutcome :=
  waitLoop parseAddress parseRfc3339 poll authResponse config 0 MAX_RETRIES

theorem waitLoop_unverified (parseAddress : Str → Option Str)
    (parseRfc3339 : Str → Option Int) (poll : Nat → StatusResponse)
    (authResponse : AuthResponse) (config : CliConfig)
    (hpoll : ∀ i, (poll i).verified = false) :
    ∀ fuel i, waitLoop parseAddress parseRfc3339 poll authResponse config i fuel =
      ⟨config, fuel, fuel * POLL_INTERVAL_SECS,
        Except.error (AuthError.timeout MAX_RETRIES)⟩ := by
  intro fuel
  induction fuel with
  | zero => intro i; rfl
  | succ f ih =>
    intro i
    unfold waitLoop
    dsimp only
    rw [if_neg (by rw [hpoll i]; exact Bool.false_ne_true), ih (i + 1)]
    simp [Nat.succ_mul]

/-- C5: a device-code session whose status endpoint reports unverified
on every poll performs exactly `MAX_RETRIES = 150` polls at
`POLL_INTERVAL = 2` seconds (300 seconds of sleeping), returns
`Timeout(MAX_RETRIES)`, and leaves the state document's auth field
untouched. -/
theorem login_always_unverified_timeout (parseAddress : Str → Option Str)
    (parseRfc3339 : Str → Option Int) (poll : Nat → StatusResponse)
    (authResponse : AuthResponse) (config : CliConfig)
    (hpoll : ∀ i, (poll i).verified = false) :
    waitForVerification parseAddress parseRfc3339 poll authResponse config =
      ⟨config, MAX_RETRIES, MAX_RETRIES * POLL_INTERVAL_SECS,
        Except.error (AuthError.timeout MAX_RETRIES)⟩ ∧
    MAX_RETRIES = 150 ∧ POLL_INTERVAL_SECS = 2 ∧
    (waitForVerification parseAddress parseRfc3339 poll authResponse
        config).config.auth = config.auth :=
  ⟨waitLoop_unverified parseAddress parseRfc3339 poll authResponse config
      hpoll MAX_RETRIES 0,
    rfl, rfl,
    by rw [waitForVerification, waitLoop_unverified parseAddress parseRfc3339
      poll authResponse config hpoll MAX_RETRIES 0]⟩

theorem login_always_unverified_timeout_witness :
    waitForVerification (fun _ => none) (fun _ => none)
        (fun _ => ⟨false, none, none, none⟩)
        ⟨['c'], ['s'], ['d'], ['e']⟩ CliConfig.default =
      ⟨CliConfig.default, 150, 300,
        Except.error (AuthError.timeout 150)⟩ :=
  (login_always_unverified_timeout (fun _ => none) (fun _ => none)
    (fun _ => ⟨false, none, none, none⟩)
    ⟨['c'], ['s'], ['d'], ['e']⟩ CliConfig.default (fun _ => rfl)).1

/-! ## Forwarding to the dApp (crates/core/src/assertion_submission.rs) -/

/-- The total `From<String> for AssertionKey` used at
assertion_submission.rs:98 (`key.clone().into()`): the panic branch is
unreachable, so the decoded key can be extracted. -/
def assertionKeyOfString (s : Str) : AssertionKey :=
  (assertionKeyFromString s).get (assertionKeyFromString_isSome s)

/-- `DappSubmitError` (crates/core/src/error.rs:37-66). -/
inductive DappSubmitError where
  | noAuthToken
  | projectSelectionFailed
  | noProjectsFound
  | apiConnectionError
  | submissionFailed (body : Str)
  | couldNotFindStoredAssertion (key : Str)
  | noStoredAssertions
deriving DecidableEq

/-- `Project` (assertion_submission.rs:20-31). -/
structure Project where
  project_id : Str
  project_name : Str
  project_description : Option Str
  profile_image_url : Option Str
  project_networks : List Str
  project_manager : Str
  created_at : Str
  updated_at : Str
deriving DecidableEq

/-- `DappSubmitArgs::provide_or_select` (assertion_submission.rs:216-235);
the interactive `Select` prompt is the external `promptSelect`. -/
def provideOrSelect (promptSelect : List Str → Except DappSubmitError Str)
    (maybeKey : Option Str) (values : List Str) :
    Except DappSubmitError Str :=
  match maybeKey with
  | none => promptSelect values
  | some key => if key ∈ values then Except.ok key else promptSelect values

/-- `DappSubmitArgs::provide_or_multi_select`
(assertion_submission.rs:246-269); the interactive `MultiSelect` prompt
is the external `promptMulti`. -/
def provideOrMultiSelect
    (promptMulti : List Str → Except DappSubmitError (List Str))
    (maybeKeys : Option (List Str)) (values : List Str) :
    Except DappSubmitError (List Str) :=
  match maybeKeys with
  | none => promptMulti values
  | some keys =>
    if ∀ k ∈ keys, k ∈ values then Except.ok keys else promptMulti values

/-- `DappSubmitArgs::select_project` (assertion_submission.rs:117-133). -/
def selectProject (promptSelect : List Str → Except DappSubmitError Str)
    (projectNameArg : Option Str) (projects : List Project) :
    Except DappSubmitError Project :=
  if projects = [] then Except.error DappSubmitError.noProjectsFound
  else
    match provideOrSelect promptSelect projectNameArg
        (projects.map (fun p => p.project_name)) with
    | Except.error e => Except.error e
    | Except.ok name =>
      match projects.find? (fun p => decide (p.project_name = name)) with
      | some p => Except.ok p
      | none => Except.error DappSubmitError.noProjectsFound

/-- `DappSubmitArgs::select_assertions` (assertion_submission.rs:136-159). -/
def selectAssertions
    (promptMulti : List Str → Except DappSubmitError (List Str))
    (assertionKeysArg : Option (List AssertionKey))
    (keys : List AssertionKey) : Except DappSubmitError (List Str) :=
  if keys = [] then Except.error DappSubmitError.noStoredAssertions
  else
    provideOrMultiSelect promptMulti
      (assertionKeysArg.map (fun ks => ks.map assertionKeyToString))
      (keys.map assertionKeyToString)

/-- Outcome of the forwarding POST (assertion_submission.rs:182-194):
either a transport error or an HTTP response with status and body. -/
inductive HttpOutcome where
  | transportError
  | response (status : Nat) (body : Str)
deriving DecidableEq

/-- `DappSubmitArgs::submit_assertion` (assertion_submission.rs:167-205):
2xx is success, 401 maps to `NoAuthToken`, any other status to
`SubmissionFailed(body)`. -/
def submitAssertion (forward : HttpOutcome) : Except DappSubmitError Unit :=
  match forward with
  | HttpOutcome.transportError => Except.error DappSubmitError.apiConnectionError
  | HttpOutcome.response status body =>
    if 200 ≤ status ∧ status < 300 then Except.ok ()
    else if status = 401 then Except.error DappSubmitError.noAuthToken
    else Except.error (DappSubmitError.submissionFailed body)

/-- The removal loop of `DappSubmitArgs::run`
(assertion_submission.rs:94-102): each selected key is removed from the
state document's collection and its record collected, erroring with
`CouldNotFindStoredAssertion` when a key is absent; removals performed
before an error are kept. -/
def removeLoop (config : CliConfig) :
    List Str → CliConfig × Except DappSubmitError (List AssertionForSubmission)
  | [] => (config, Except.ok [])
  | key :: rest =>
    let r := removeAssoc config.assertions_for_submission
      (assertionKeyOfString key)
    match r.1 with
    | none =>
      (config, Except.error (DappSubmitError.couldNotFindStoredAssertion key))
    | some afs =>
      let config' : CliConfig := { config with assertions_for_submission := r.2 }
      match removeLoop config' rest with
      | (config'', Except.ok afss) => (config'', Except.ok (afs :: afss))
      | (config'', Except.error e) => (config'', Except.error e)

/-- Outcome of `DappSubmitArgs::run`: final state document and result. -/
structure DappRunOutcome where
  config : CliConfig
  result : Except DappSubmitError Unit
deriving DecidableEq

/-- `DappSubmitArgs::run` (assertion_submission.rs:83-114): fetch the
caller's projects (`NoAuthToken` when the state document has no auth),
select a project and assertions, remove each selected record from the
collection, then forward them; `projectsRes` abstracts the project-list
network call and `forward` the forwarding POST. -/
def dappSubmitRun (projectNameArg : Option Str)
    (assertionKeysArg : Option (List AssertionKey))
    (promptSelect : List Str → Except DappSubmitError Str)
    (promptMulti : List Str → Except DappSubmitError (List Str))
    (projectsRes : Except DappSubmitError (List Project))
    (forward : HttpOutcome) (config : CliConfig) : DappRunOutcome :=
  match config.auth with
  | none => ⟨config, Except.error DappSubmitError.noAuthToken⟩
  | some _ =>
    match projectsRes with
    | Except.error e => ⟨config, Except.error e⟩
    | Except.ok projects =>
      match selectProject promptSelect projectNameArg projects with
      | Except.error e => ⟨config, Except.error e⟩
      | Except.ok _project =>
        let keys := config.assertions_for_submission.map (fun p => p.1)
        match selectAssertions promptMulti assertionKeysArg keys with
        | Except.error e => ⟨config, Except.error e⟩
        | Except.ok selected =>
          match removeLoop config selected with
          | (config', Except.error e) => ⟨config', Except.error e⟩
          | (config', Except.ok _assertions) =>
            match submitAssertion forward with
            | Except.error e => ⟨config', Except.error e⟩
            | Except.ok _ => ⟨config', Except.ok ()⟩

/-- C6 counterexample: with one stored record keyed `a` that is selected
for forwarding and a forwarding POST answering HTTP 500, `run` returns
`SubmissionFailed` but the record has already been removed from the
collection — it is not still present. -/
theorem dapp_submit_failure_cex :
    dappSubmitRun (some ['P']) (some [⟨['a'], []⟩])
        (fun _ => Except.error DappSubmitError.projectSelectionFailed)
        (fun _ => Except.error DappSubmitError.projectSelectionFailed)
        (Except.ok [⟨['p'], ['P'], none, none, [], ['m'], ['c'], ['u']⟩])
        (HttpOutcome.response 500 ['b'])
        ⟨some ⟨['t'], ['r'], ['u'], 0⟩,
          [(⟨['a'], []⟩, ⟨['a'], ['1'], ['g'], []⟩)]⟩ =
      ⟨⟨some ⟨['t'], ['r'], ['u'], 0⟩, []⟩,
        Except.error (DappSubmitError.submissionFailed ['b'])⟩ := by
  decide

/-- C6 (amended): selected records are removed from the in-memory
collection at selection time, before the forwarding request is sent;
when the forwarding POST fails with a non-success, non-401 status,
`run` returns `SubmissionFailed` and the final collection equals the
original one with every selected key removed — the removals are not
rolled back. -/
theorem dapp_submit_failure_frame (projectNameArg : Option Str)
    (assertionKeysArg : Option (List AssertionKey))
    (promptSelect : List Str → Except DappSubmitError Str)
    (promptMulti : List Str → Except DappSubmitError (List Str))
    (projects : List Project) (status : Nat) (body : Str)
    (config : CliConfig) (auth0 : UserAuth)
    (hauth : config.auth = some auth0) (proj : Project)
    (hproj : selectProject promptSelect projectNameArg projects =
      Except.ok proj)
    (selected : List Str)
    (hsel : selectAssertions promptMulti assertionKeysArg
        (config.assertions_for_submission.map (fun p => p.1)) =
      Except.ok selected)
    (hfail : ¬(200 ≤ status ∧ status < 300)) (h401 : status ≠ 401) :
    (dappSubmitRun projectNameArg assertionKeysArg promptSelect promptMulti
        (Except.ok projects) (HttpOutcome.response status body)
        config).config =
      (removeLoop config selected).1 ∧
    (∀ l, (removeLoop config selected).2 = Except.ok l →
      (dappSubmitRun projectNameArg assertionKeysArg promptSelect promptMulti
          (Except.ok projects) (HttpOutcome.response status body)
          config).result =
        Except.error (DappSubmitError.submissionFailed body)) := by
  have hsubmit : submitAssertion (HttpOutcome.response status body) =
      Except.error (DappSubmitError.submissionFailed body) := by
    unfold submitAssertion
    dsimp only
    rw [if_neg hfail, if_neg h401]
  unfold dappSubmitRun
  rw [hauth]
  dsimp only
  rw [hproj]
  dsimp only
  rw [hsel]
  dsimp only
  cases hrl : removeLoop config selected with
  | mk config' res =>
    cases res with
    | error e =>
      refine ⟨rfl, ?_⟩
      intro l hl
      simp at hl
    | ok l =>
      rw [hsubmit]
      exact ⟨rfl, fun _ _ => rfl⟩

theorem dapp_submit_failure_frame_witness :
    (dappSubmitRun (some ['P']) (some [⟨['a'], []⟩])
        (fun _ => Except.error DappSubmitError.noProjectsFound)
        (fun _ => Except.error DappSubmitError.noProjectsFound)
        (Except.ok [⟨['q'], ['P'], none, none, [], ['m'], ['c'], ['u']⟩])
        (HttpOutcome.response 502 ['z'])
        ⟨some ⟨['t'], ['r'], ['u'], 7⟩,
          [(⟨['a'], []⟩, ⟨['a'], ['2'], ['h'], []⟩)]⟩).config =
      (removeLoop
        ⟨some ⟨['t'], ['r'], ['u'], 7⟩,
          [(⟨['a'], []⟩, ⟨['a'], ['2'], ['h'], []⟩)]⟩ [['a']]).1 ∧
    (∀ l, (removeLoop
        ⟨some ⟨['t'], ['r'], ['u'], 7⟩,
          [(⟨['a'], []⟩, ⟨['a'], ['2'], ['h'], []⟩)]⟩ [['a']]).2 =
        Except.ok l →
      (dappSubmitRun (some ['P']) (some [⟨['a'], []⟩])
          (fun _ => Except.error DappSubmitError.noProjectsFound)
          (fun _ => Except.error DappSubmitError.noProjectsFound)
          (Except.ok [⟨['q'], ['P'], none, none, [], ['m'], ['c'], ['u']⟩])
          (HttpOutcome.response 502 ['z'])
          ⟨some ⟨['t'], ['r'], ['u'], 7⟩,
            [(⟨['a'], []⟩, ⟨['a'], ['2'], ['h'], []⟩)]⟩).result =
        Except.error (DappSubmitError.submissionFailed ['z'])) :=
  dapp_submit_failure_frame (some ['P']) (some [⟨['a'], []⟩])
    (fun _ => Except.error DappSubmitError.noProjectsFound)
    (fun _ => Except.error DappSubmitError.noProjectsFound)
    [⟨['q'], ['P'], none, none, [], ['m'], ['c'], ['u']⟩] 502 ['z']
    ⟨some ⟨['t'], ['r'], ['u'], 7⟩,
      [(⟨['a'], []⟩, ⟨['a'], ['2'], ['h'], []⟩)]⟩
    ⟨['t'], ['r'], ['u'], 7⟩ rfl
    ⟨['q'], ['P'], none, none, [], ['m'], ['c'], ['u']⟩ (by decide)
    [['a']] (by decide) (by decide) (by decide)
